import Mathlib

/-!
Verification of the cash-group / oracle-rate core of this repository.

The repository ships only the test suite (`tests/common/valuation/
test_cash_group_getters.py`) and deployment glue; the core contract code
(CashGroupConfig, MarketCurveStore, CurveBuilder, OracleRateEngine,
RateSource) is not present in the source tree.  The definitions below are
therefore modelled from the specification document, faithful to its words,
and the claims are settled against this model.
-/

namespace Contracts

/-- Modelled from the spec: one basis point in the engine's 1e9 fixed-point
rate precision (`RATE_PRECISION / 10000`). -/
def BASIS_POINT : Nat := 100000

/-- Modelled from the spec: the engine's fixed-point rate precision (1e9). -/
def RATE_PRECISION : Nat := 1000000000

/-- Modelled from the spec: the external feed's fixed-point precision (1e18). -/
def FEED_PRECISION : Nat := 1000000000000000000

/-- Modelled from the spec: the fixed annualization constant (periods per
year) used by RateSource, visible in the tests as `2102400`. -/
def PERIODS_PER_YEAR : Nat := 2102400

/-- Modelled from the spec §3: per-currency curve configuration.  The
rate fields hold the compact stored integers; the scaling accessors below
apply the fixed multipliers. -/
structure CashGroupConfig where
  activeMarketCount : Nat
  rateOracleTimeWindow : Nat
  liquidityFeeRate : Nat
  debtBufferRate : Nat
  fCashHaircutRate : Nat
  settlementPenaltyRate : Nat
  liquidityRepoDiscountRate : Nat
  liquidityHaircuts : List Nat
  rateScalars : List Int
  deriving Repr, DecidableEq, Inhabited

/-- Modelled from the spec §7: configuration error taxonomy. -/
inductive ConfigError where
  | InvalidMarketCount
  | MarketCountDecreased
  | ArrayLengthMismatch
  | HaircutOutOfRange
  | ZeroRateScalar
  deriving Repr, DecidableEq

/-- Modelled from the spec §7: curve error taxonomy. -/
inductive CurveError where
  | CurrencyNotConfigured
  | PositionOutOfRange
  | MaturityBeyondCurve
  deriving Repr, DecidableEq

/-- The active market count currently in storage; a currency with no stored
configuration has no markets. -/
def storedMarketCount : Option CashGroupConfig → Nat
  | some c => c.activeMarketCount
  | none => 0

/-- Modelled from the spec §4.1: the validation performed by `setConfig`,
checking the invariants in the order the spec lists the failures. -/
def validateConfig (stored : Option CashGroupConfig) (cand : CashGroupConfig) :
    Option ConfigError :=
  if cand.activeMarketCount < 2 ∨ 9 < cand.activeMarketCount then
    some ConfigError.InvalidMarketCount
  else if cand.activeMarketCount < storedMarketCount stored then
    some ConfigError.MarketCountDecreased
  else if cand.liquidityHaircuts.length ≠ cand.activeMarketCount ∨
      cand.rateScalars.length ≠ cand.activeMarketCount then
    some ConfigError.ArrayLengthMismatch
  else if cand.liquidityHaircuts.any (fun x => decide (100 < x)) then
    some ConfigError.HaircutOutOfRange
  else if cand.rateScalars.any (fun x => decide (x ≤ 0)) then
    some ConfigError.ZeroRateScalar
  else
    none

/-- Modelled from the spec §4.1: `setConfig` for one currency.  Returns the
storage cell after the call together with the error, if any: on success the
whole record is replaced, on any failure storage is left unchanged. -/
def setConfig (stored : Option CashGroupConfig) (cand : CashGroupConfig) :
    Option CashGroupConfig × Option ConfigError :=
  match validateConfig stored cand with
  | some e => (stored, some e)
  | none => (some cand, none)

/-- Modelled from the spec §3: `rateOracleTimeWindow` is stored in minutes,
scaled ×60 (seconds). -/
def getRateOracleTimeWindow (cfg : CashGroupConfig) : Nat :=
  cfg.rateOracleTimeWindow * 60

/-- Modelled from the spec §3: liquidity fee stored ×1 basis point. -/
def getLiquidityFee (cfg : CashGroupConfig) : Nat :=
  cfg.liquidityFeeRate * BASIS_POINT

/-- Modelled from the spec §3: debt buffer stored ×5 basis points. -/
def getDebtBuffer (cfg : CashGroupConfig) : Nat :=
  cfg.debtBufferRate * 5 * BASIS_POINT

/-- Modelled from the spec §3: fCash haircut stored ×5 basis points. -/
def getfCashHaircut (cfg : CashGroupConfig) : Nat :=
  cfg.fCashHaircutRate * 5 * BASIS_POINT

/-- Modelled from the spec §3: settlement penalty stored ×5 basis points. -/
def getSettlementPenalty (cfg : CashGroupConfig) : Nat :=
  cfg.settlementPenaltyRate * 5 * BASIS_POINT

/-- Modelled from the spec §3: liquidity-token repo discount stored ×5
basis points. -/
def getLiquidityTokenRepoDiscount (cfg : CashGroupConfig) : Nat :=
  cfg.liquidityRepoDiscountRate * 5 * BASIS_POINT

/-- Modelled from the spec §3: rate scalar at 1-based market position,
stored ×10. -/
def getRateScalar (cfg : CashGroupConfig) (position : Nat) : Int :=
  cfg.rateScalars.getD (position - 1) 0 * 10

/-- Modelled from the spec §3: liquidity haircut indexed by market
position + 2 (the haircut applies to markets at position ≥ 2), unscaled. -/
def getLiquidityHaircut (cfg : CashGroupConfig) (assetType : Nat) : Nat :=
  cfg.liquidityHaircuts.getD (assetType - 2) 0

/-- Modelled from the spec §3: one Market record. -/
structure Market where
  currencyId : Nat
  maturity : Nat
  settlementDate : Nat
  totalLiquidity : Nat
  totalfCash : Nat
  totalAssetCash : Nat
  lastImpliedRate : Nat
  previousTradeTime : Nat
  updatedFlag : Bool
  deriving Repr, DecidableEq, Inhabited

/-- Modelled from the spec §4.3: the read-consistent snapshot assembled by
CurveBuilder; `markets` holds the active markets in increasing maturity
order, one per active position. -/
structure WorkingCurve where
  config : CashGroupConfig
  markets : List Market
  deriving Repr, DecidableEq, Inhabited

/-- Modelled from the spec §4.3: `getMarketView` returns the market at a
1-based position; `totalLiquidity` is forced to zero unless requested and
the `updatedFlag` on the returned view is always false for a pure read. -/
def getMarketView (curve : WorkingCurve) (position : Nat) (needsLiquidity : Bool) :
    Except CurveError Market :=
  if position < 1 ∨ curve.config.activeMarketCount < position then
    Except.error CurveError.PositionOutOfRange
  else
    match curve.markets.get? (position - 1) with
    | none => Except.error CurveError.PositionOutOfRange
    | some mk =>
        Except.ok { mk with
          totalLiquidity := if needsLiquidity then mk.totalLiquidity else 0,
          updatedFlag := false }

/-- Modelled from the spec §4.4: the external feed's per-period supply rate
annualized by the fixed periods-per-year constant, still at the feed's 1e18
precision. -/
def annualizedSupplyRate (supplyRate : Nat) : Nat :=
  supplyRate * PERIODS_PER_YEAR

/-- Modelled from the spec §4.4: `RateSource.spotRate` — the annualized feed
rate rescaled from the feed's 1e18 precision into the engine's 1e9 rate
precision (integer division). -/
def spotRate (supplyRate : Nat) : Nat :=
  annualizedSupplyRate supplyRate * RATE_PRECISION / FEED_PRECISION

/-- Modelled from the spec §4.5: the smallest 1-based position whose market
maturity is ≥ the target maturity; `none` when the target lies beyond every
active maturity. -/
def marketIndex (targetMaturity : Nat) : List Market → Option Nat
  | [] => none
  | mk :: rest =>
      if targetMaturity ≤ mk.maturity then some 1
      else (marketIndex targetMaturity rest).map (fun p => p + 1)

/-- Modelled from the spec §4.5 and §7: `classify` returns the position and
the idiosyncratic flag; a target maturity beyond the longest active maturity
raises `MaturityBeyondCurve` (never clamped). -/
def classify (curve : WorkingCurve) (targetMaturity : Nat) :
    Except CurveError (Nat × Bool) :=
  match marketIndex targetMaturity curve.markets with
  | none => Except.error CurveError.MaturityBeyondCurve
  | some position =>
      Except.ok (position,
        decide (targetMaturity ≠ (curve.markets.getD (position - 1) default).maturity))

/-- Modelled from the spec §4.5 step 5: integer linear interpolation. -/
def interpolate (shortRate shortTime longRate longTime targetMaturity : Int) : Int :=
  shortRate + (longRate - shortRate) * (targetMaturity - shortTime) / (longTime - shortTime)

/-- Modelled from the spec §4.5: `getOracleRate`.  The external rate feed
enters only through `spotRate supplyRate`, used when the target is shorter
than the shortest active market. -/
def getOracleRate (curve : WorkingCurve) (supplyRate : Nat)
    (targetMaturity evalTime : Nat) : Except CurveError Int :=
  match classify curve targetMaturity with
  | Except.error e => Except.error e
  | Except.ok (position, idiosyncratic) =>
      if idiosyncratic then
        if position = 1 then
          Except.ok (interpolate (spotRate supplyRate) evalTime
            ((curve.markets.getD 0 default).lastImpliedRate : Int)
            ((curve.markets.getD 0 default).maturity : Int)
            (targetMaturity : Int))
        else
          Except.ok (interpolate
            ((curve.markets.getD (position - 2) default).lastImpliedRate : Int)
            ((curve.markets.getD (position - 2) default).maturity : Int)
            ((curve.markets.getD (position - 1) default).lastImpliedRate : Int)
            ((curve.markets.getD (position - 1) default).maturity : Int)
            (targetMaturity : Int))
      else
        Except.ok ((curve.markets.getD (position - 1) default).lastImpliedRate : Int)

/-- The longest active maturity of a working curve (0 for an empty curve). -/
def longestMaturity (curve : WorkingCurve) : Nat :=
  curve.markets.foldr (fun mk acc => max mk.maturity acc) 0

/-- Concrete market constructor used by witnesses and counterexamples. -/
def mkMarket (maturity rate : Nat) : Market :=
  { currencyId := 1, maturity := maturity, settlementDate := maturity,
    totalLiquidity := 0, totalfCash := 50, totalAssetCash := 60,
    lastImpliedRate := rate, previousTradeTime := 0, updatedFlag := false }

/-- Concrete valid configuration with `n` active markets, used by witnesses. -/
def sampleConfig (n : Nat) : CashGroupConfig :=
  { activeMarketCount := n, rateOracleTimeWindow := 10, liquidityFeeRate := 2,
    debtBufferRate := 3, fCashHaircutRate := 4, settlementPenaltyRate := 5,
    liquidityRepoDiscountRate := 6,
    liquidityHaircuts := List.replicate n 90,
    rateScalars := List.replicate n 10 }

/-! ### Helper lemmas -/

theorem getD_maturity_lt_of_pairwise (l : List Market)
    (hs : l.Pairwise (fun a b => a.maturity < b.maturity))
    {i j : Nat} (hij : i < j) (hj : j < l.length) :
    (l.getD i default).maturity < (l.getD j default).maturity := by
  have hi : i < l.length := lt_trans hij hj
  rw [List.getD_eq_get _ _ hi, List.getD_eq_get _ _ hj]
  exact List.pairwise_iff_get.mp hs ⟨i, hi⟩ ⟨j, hj⟩ (by simpa using hij)

theorem marketIndex_eq_some (m : Nat) (l : List Market) (j : Nat)
    (hj : j < l.length)
    (hbefore : ∀ i, i < j → (l.getD i default).maturity < m)
    (hhit : m ≤ (l.getD j default).maturity) :
    marketIndex m l = some (j + 1) := by
  induction l generalizing j with
  | nil => simp at hj
  | cons mk rest ih =>
    cases j with
    | zero =>
      rw [List.getD_cons_zero] at hhit
      simp [marketIndex, hhit]
    | succ j =>
      have h0 : mk.maturity < m := by
        have := hbefore 0 (Nat.succ_pos j)
        rwa [List.getD_cons_zero] at this
      have hnot : ¬ m ≤ mk.maturity := by omega
      have hj' : j < rest.length := by
        simp only [List.length_cons] at hj; omega
      have hrec : marketIndex m rest = some (j + 1) := by
        apply ih j hj'
        · intro i hi
          have := hbefore (i + 1) (by omega)
          rwa [List.getD_cons_succ] at this
        · rwa [List.getD_cons_succ] at hhit
      simp [marketIndex, hnot, hrec]

theorem marketIndex_eq_none (m : Nat) (l : List Market)
    (h : ∀ mk ∈ l, mk.maturity < m) :
    marketIndex m l = none := by
  induction l with
  | nil => rfl
  | cons mk rest ih =>
    have h0 : ¬ m ≤ mk.maturity := by
      have := h mk (List.mem_cons_self mk rest)
      omega
    have hrec := ih (fun x hx => h x (List.mem_cons_of_mem mk hx))
    simp [marketIndex, h0, hrec]

theorem maturity_le_foldr_max (l : List Market) (mk : Market) (h : mk ∈ l) :
    mk.maturity ≤ l.foldr (fun a acc => max a.maturity acc) 0 := by
  induction l with
  | nil => simp at h
  | cons a rest ih =>
    rcases List.mem_cons.mp h with rfl | h
    · exact le_max_left _ _
    · exact le_trans (ih h) (le_max_right _ _)

theorem interpolate_mem_closed_interval (a ta b tb m : Int)
    (h1 : ta ≤ m) (h2 : m ≤ tb) (h3 : ta < tb) :
    min a b ≤ interpolate a ta b tb m ∧ interpolate a ta b tb m ≤ max a b := by
  unfold interpolate
  have hD0 : 0 < tb - ta := by omega
  have hT0 : 0 ≤ m - ta := by omega
  have hTD : m - ta ≤ tb - ta := by omega
  rcases le_total a b with hab | hba
  · have hd0 : 0 ≤ b - a := by omega
    have hlow : 0 ≤ (b - a) * (m - ta) / (tb - ta) :=
      Int.ediv_nonneg (mul_nonneg hd0 hT0) (le_of_lt hD0)
    have hnum : (b - a) * (m - ta) ≤ (b - a) * (tb - ta) :=
      mul_le_mul_of_nonneg_left hTD hd0
    have hhigh : (b - a) * (m - ta) / (tb - ta) ≤ b - a := by
      have := Int.ediv_le_ediv hD0 hnum
      rwa [Int.mul_ediv_cancel _ (ne_of_gt hD0)] at this
    rw [min_eq_left hab, max_eq_right hab]
    constructor <;> linarith
  · have hd0 : b - a ≤ 0 := by omega
    have hnum : (b - a) * (m - ta) ≤ 0 := by nlinarith
    have hhigh : (b - a) * (m - ta) / (tb - ta) ≤ 0 := by
      have := Int.ediv_le_ediv hD0 hnum
      rwa [Int.zero_ediv] at this
    have hnum2 : (b - a) * (tb - ta) ≤ (b - a) * (m - ta) := by nlinarith
    have hlow : b - a ≤ (b - a) * (m - ta) / (tb - ta) := by
      have := Int.ediv_le_ediv hD0 hnum2
      rwa [Int.mul_ediv_cancel _ (ne_of_gt hD0)] at this
    rw [min_eq_right hba, max_eq_left hba]
    constructor <;> linarith

theorem validateConfig_eq_none (stored : Option CashGroupConfig)
    (cand : CashGroupConfig) (h : validateConfig stored cand = none) :
    2 ≤ cand.activeMarketCount ∧ cand.activeMarketCount ≤ 9 ∧
    storedMarketCount stored ≤ cand.activeMarketCount ∧
    cand.liquidityHaircuts.length = cand.activeMarketCount ∧
    cand.rateScalars.length = cand.activeMarketCount ∧
    (∀ x ∈ cand.liquidityHaircuts, x ≤ 100) ∧
    (∀ x ∈ cand.rateScalars, 0 < x) := by
  unfold validateConfig at h
  split_ifs at h with h1 h2 h3 h4 h5
  push_neg at h1 h3
  simp only [List.any_eq_true, decide_eq_true_eq, not_exists, not_and, not_lt, not_le] at h4 h5
  exact ⟨by omega, by omega, by omega, h3.1, h3.2,
    fun x hx => h4 x hx, fun x hx => h5 x hx⟩

theorem setConfig_eq_of_validate_some (stored : Option CashGroupConfig)
    (cand : CashGroupConfig) (e : ConfigError)
    (h : validateConfig stored cand = some e) :
    setConfig stored cand = (stored, some e) := by
  simp [setConfig, h]

/-! ### Claim theorems -/

/-- C4: for every currency state and every candidate configuration whose
`activeMarketCount` is outside [2, 9], `setConfig` fails with
`InvalidMarketCount` and the stored configuration is not modified. -/
theorem setConfig_invalid_market_count (stored : Option CashGroupConfig)
    (cand : CashGroupConfig)
    (h : cand.activeMarketCount < 2 ∨ 9 < cand.activeMarketCount) :
    setConfig stored cand = (stored, some ConfigError.InvalidMarketCount) := by
  have hv : validateConfig stored cand = some ConfigError.InvalidMarketCount := by
    unfold validateConfig
    rw [if_pos h]
  exact setConfig_eq_of_validate_some _ _ _ hv

theorem setConfig_invalid_market_count_witness :
    ((sampleConfig 10).activeMarketCount < 2 ∨
      9 < (sampleConfig 10).activeMarketCount) ∧
    setConfig (some (sampleConfig 2)) (sampleConfig 10) =
      (some (sampleConfig 2), some ConfigError.InvalidMarketCount) :=
  ⟨by decide, setConfig_invalid_market_count _ _ (by decide)⟩

/-- C5: once a configuration with `activeMarketCount = k` has been accepted
(so `2 ≤ k`), any subsequent candidate with a smaller count is rejected with
storage unchanged, and any accepted update has a count that is at least the
stored one (monotone non-decreasing). -/
theorem activeMarketCount_monotone (c cand : CashGroupConfig)
    (hc : 2 ≤ c.activeMarketCount) :
    (cand.activeMarketCount < c.activeMarketCount →
      (setConfig (some c) cand).1 = some c ∧ (setConfig (some c) cand).2 ≠ none) ∧
    ((setConfig (some c) cand).2 = none →
      c.activeMarketCount ≤ cand.activeMarketCount) := by
  constructor
  · intro hlt
    by_cases h1 : cand.activeMarketCount < 2 ∨ 9 < cand.activeMarketCount
    · have hv : validateConfig (some c) cand = some ConfigError.InvalidMarketCount := by
        unfold validateConfig
        rw [if_pos h1]
      rw [setConfig_eq_of_validate_some _ _ _ hv]
      exact ⟨rfl, by simp⟩
    · have h2 : cand.activeMarketCount < storedMarketCount (some c) := hlt
      have hv : validateConfig (some c) cand = some ConfigError.MarketCountDecreased := by
        unfold validateConfig
        rw [if_neg h1, if_pos h2]
      rw [setConfig_eq_of_validate_some _ _ _ hv]
      exact ⟨rfl, by simp⟩
  · intro hnone
    cases hv : validateConfig (some c) cand with
    | some e =>
        rw [setConfig_eq_of_validate_some _ _ _ hv] at hnone
        simp at hnone
    | none =>
        have := (validateConfig_eq_none _ _ hv).2.2.1
        simpa [storedMarketCount] using this

theorem activeMarketCount_monotone_witness :
    2 ≤ (sampleConfig 4).activeMarketCount ∧
    (((sampleConfig 3).activeMarketCount < (sampleConfig 4).activeMarketCount →
      (setConfig (some (sampleConfig 4)) (sampleConfig 3)).1 = some (sampleConfig 4) ∧
      (setConfig (some (sampleConfig 4)) (sampleConfig 3)).2 ≠ none) ∧
    ((setConfig (some (sampleConfig 4)) (sampleConfig 3)).2 = none →
      (sampleConfig 4).activeMarketCount ≤ (sampleConfig 3).activeMarketCount)) :=
  ⟨by decide, activeMarketCount_monotone _ _ (by decide)⟩

/-- C6: `setConfig` rejects the candidate, leaving storage unchanged,
whenever the haircut or scalar array length differs from the candidate's
`activeMarketCount`, or any haircut exceeds 100, or any rate scalar is
zero or negative. -/
theorem setConfig_rejects_invalid_arrays (stored : Option CashGroupConfig)
    (cand : CashGroupConfig)
    (h : cand.liquidityHaircuts.length ≠ cand.activeMarketCount ∨
         cand.rateScalars.length ≠ cand.activeMarketCount ∨
         (∃ x ∈ cand.liquidityHaircuts, 100 < x) ∨
         (∃ x ∈ cand.rateScalars, x ≤ 0)) :
    (setConfig stored cand).1 = stored ∧ (setConfig stored cand).2 ≠ none := by
  cases hv : validateConfig stored cand with
  | some e => simp [setConfig, hv]
  | none =>
      obtain ⟨-, -, -, hlen1, hlen2, hhair, hscal⟩ := validateConfig_eq_none _ _ hv
      rcases h with h | h | ⟨x, hx, hgt⟩ | ⟨x, hx, hle⟩
      · exact absurd hlen1 h
      · exact absurd hlen2 h
      · exact absurd (hhair x hx) (by omega)
      · exact absurd (hscal x hx) (by omega)

/-- A candidate with a haircut above 100, used as a concrete rejection. -/
def badHaircuts : CashGroupConfig :=
  { sampleConfig 3 with liquidityHaircuts := [102, 90, 90] }

theorem setConfig_rejects_invalid_arrays_witness :
    (badHaircuts.liquidityHaircuts.length ≠ badHaircuts.activeMarketCount ∨
     badHaircuts.rateScalars.length ≠ badHaircuts.activeMarketCount ∨
     (∃ x ∈ badHaircuts.liquidityHaircuts, 100 < x) ∨
     (∃ x ∈ badHaircuts.rateScalars, x ≤ 0)) ∧
    (setConfig (some (sampleConfig 2)) badHaircuts).1 = some (sampleConfig 2) ∧
    (setConfig (some (sampleConfig 2)) badHaircuts).2 ≠ none :=
  ⟨by decide, setConfig_rejects_invalid_arrays _ _ (by decide)⟩

/-- C7: for every accepted configuration, the scaling accessors return the
stored compact integers multiplied by their fixed constants: time window
×60 seconds, liquidity fee ×1 basis point, the four other rates ×5 basis
points, rate scalar ×10 at 1-based position, and liquidity haircut unscaled
at market position i + 2. -/
theorem config_roundtrip_scaling (stored : Option CashGroupConfig)
    (cand cfg : CashGroupConfig) (i : Nat)
    (h : setConfig stored cand = (some cfg, none))
    (hi : i < cand.activeMarketCount) :
    getRateOracleTimeWindow cfg = cand.rateOracleTimeWindow * 60 ∧
    getLiquidityFee cfg = cand.liquidityFeeRate * BASIS_POINT ∧
    getDebtBuffer cfg = cand.debtBufferRate * 5 * BASIS_POINT ∧
    getfCashHaircut cfg = cand.fCashHaircutRate * 5 * BASIS_POINT ∧
    getSettlementPenalty cfg = cand.settlementPenaltyRate * 5 * BASIS_POINT ∧
    getLiquidityTokenRepoDiscount cfg = cand.liquidityRepoDiscountRate * 5 * BASIS_POINT ∧
    getRateScalar cfg (i + 1) = cand.rateScalars.getD i 0 * 10 ∧
    getLiquidityHaircut cfg (i + 2) = cand.liquidityHaircuts.getD i 0 := by
  have hcfg : cfg = cand := by
    cases hv : validateConfig stored cand with
    | some e =>
        rw [setConfig_eq_of_validate_some _ _ _ hv] at h
        simp at h
    | none =>
        simp only [setConfig, hv, Prod.mk.injEq, Option.some.injEq] at h
        exact h.1.symm
  subst hcfg
  refine ⟨rfl, rfl, rfl, rfl, rfl, rfl, ?_, ?_⟩
  · simp [getRateScalar]
  · simp [getLiquidityHaircut]

theorem config_roundtrip_scaling_witness :
    (setConfig none (sampleConfig 3) = (some (sampleConfig 3), none) ∧
      1 < (sampleConfig 3).activeMarketCount) ∧
    (getRateOracleTimeWindow (sampleConfig 3) = (sampleConfig 3).rateOracleTimeWindow * 60 ∧
    getLiquidityFee (sampleConfig 3) = (sampleConfig 3).liquidityFeeRate * BASIS_POINT ∧
    getDebtBuffer (sampleConfig 3) = (sampleConfig 3).debtBufferRate * 5 * BASIS_POINT ∧
    getfCashHaircut (sampleConfig 3) = (sampleConfig 3).fCashHaircutRate * 5 * BASIS_POINT ∧
    getSettlementPenalty (sampleConfig 3) = (sampleConfig 3).settlementPenaltyRate * 5 * BASIS_POINT ∧
    getLiquidityTokenRepoDiscount (sampleConfig 3) = (sampleConfig 3).liquidityRepoDiscountRate * 5 * BASIS_POINT ∧
    getRateScalar (sampleConfig 3) (1 + 1) = (sampleConfig 3).rateScalars.getD 1 0 * 10 ∧
    getLiquidityHaircut (sampleConfig 3) (1 + 2) = (sampleConfig 3).liquidityHaircuts.getD 1 0) :=
  ⟨⟨by decide, by decide⟩, config_roundtrip_scaling none _ _ 1 (by decide) (by decide)⟩

/-- C8: for every valid 1-based position, `getMarketView` returns a view
whose `totalLiquidity` is forced to 0 when liquidity is not requested and
equals the stored value when it is, all other fields equal the stored
record and the returned `updatedFlag` is always false. -/
theorem getMarketView_fields (curve : WorkingCurve) (position : Nat) (b : Bool)
    (h1 : 1 ≤ position) (h2 : position ≤ curve.config.activeMarketCount)
    (hlen : curve.config.activeMarketCount ≤ curve.markets.length) :
    getMarketView curve position b =
      Except.ok { curve.markets.getD (position - 1) default with
        totalLiquidity :=
          if b then (curve.markets.getD (position - 1) default).totalLiquidity else 0,
        updatedFlag := false } := by
  have hcond : ¬ (position < 1 ∨ curve.config.activeMarketCount < position) := by omega
  have hp : position - 1 < curve.markets.length := by omega
  unfold getMarketView
  rw [if_neg hcond, List.get?_eq_get hp, List.getD_eq_get _ _ hp]

/-- A working curve whose stored markets carry non-zero liquidity. -/
def curveLiq : WorkingCurve :=
  ⟨sampleConfig 2,
    [{ mkMarket 100 11 with totalLiquidity := 500 },
     { mkMarket 200 22 with totalLiquidity := 600 }]⟩

theorem getMarketView_fields_witness :
    (1 ≤ 1 ∧ 1 ≤ curveLiq.config.activeMarketCount ∧
      curveLiq.config.activeMarketCount ≤ curveLiq.markets.length) ∧
    getMarketView curveLiq 1 false =
      Except.ok { curveLiq.markets.getD 0 default with
        totalLiquidity := 0, updatedFlag := false } ∧
    getMarketView curveLiq 1 true =
      Except.ok { curveLiq.markets.getD 0 default with
        totalLiquidity := (curveLiq.markets.getD 0 default).totalLiquidity,
        updatedFlag := false } :=
  ⟨⟨by decide, by decide, by decide⟩,
    getMarketView_fields curveLiq 1 false (by decide) (by decide) (by decide),
    getMarketView_fields curveLiq 1 true (by decide) (by decide) (by decide)⟩

/-- C10: the annualized spot rate is the per-period feed rate multiplied by
the fixed annualization constant 2102400 and rescaled from the feed's 1e18
precision into the engine's 1e9 rate precision, i.e. `s * 2102400 / 1e9`. -/
theorem spotRate_annualization_formula (s : Nat) :
    spotRate s = s * 2102400 / 1000000000 := by
  unfold spotRate annualizedSupplyRate RATE_PRECISION FEED_PRECISION PERIODS_PER_YEAR
  have hden : (1000000000000000000 : Nat) = 1000000000 * 1000000000 := by norm_num
  rw [hden, Nat.mul_div_mul_right _ _ (by norm_num)]

/-- C9: a target maturity strictly beyond the longest active maturity makes
`getOracleRate` fail with `MaturityBeyondCurve`; no rate is produced. -/
theorem oracle_rate_beyond_curve (curve : WorkingCurve) (s t m : Nat)
    (h : longestMaturity curve < m) :
    getOracleRate curve s m t = Except.error CurveError.MaturityBeyondCurve := by
  have hmi : marketIndex m curve.markets = none :=
    marketIndex_eq_none m curve.markets (fun mk hmk =>
      lt_of_le_of_lt (maturity_le_foldr_max _ mk hmk) h)
  simp [getOracleRate, classify, hmi]

/-- A sorted three-market working curve used by the oracle-rate witnesses. -/
def curveExact : WorkingCurve :=
  ⟨sampleConfig 3, [mkMarket 100 11, mkMarket 200 22, mkMarket 300 44]⟩

theorem oracle_rate_beyond_curve_witness :
    longestMaturity curveExact < 400 ∧
    getOracleRate curveExact 7 400 50 = Except.error CurveError.MaturityBeyondCurve :=
  ⟨by decide, oracle_rate_beyond_curve curveExact 7 50 400 (by decide)⟩

/-- C1: for a curve whose active maturities are strictly increasing, a query
at an exact active-market maturity returns that market's stored
`lastImpliedRate` unchanged, for any evaluation time before the maturity. -/
theorem oracle_rate_exact_maturity (curve : WorkingCurve) (s t j : Nat)
    (hsorted : curve.markets.Pairwise (fun a b => a.maturity < b.maturity))
    (hj : j < curve.markets.length)
    (ht : t < (curve.markets.getD j default).maturity) :
    getOracleRate curve s ((curve.markets.getD j default).maturity) t =
      Except.ok ((curve.markets.getD j default).lastImpliedRate : Int) := by
  have hmi : marketIndex ((curve.markets.getD j default).maturity) curve.markets =
      some (j + 1) :=
    marketIndex_eq_some _ _ j hj
      (fun i hi => getD_maturity_lt_of_pairwise _ hsorted hi hj) le_rfl
  simp only [getOracleRate, classify, hmi]
  simp

theorem oracle_rate_exact_maturity_witness :
    (curveExact.markets.Pairwise (fun a b => a.maturity < b.maturity) ∧
     1 < curveExact.markets.length ∧
     50 < (curveExact.markets.getD 1 default).maturity) ∧
    getOracleRate curveExact 7 ((curveExact.markets.getD 1 default).maturity) 50 =
      Except.ok ((curveExact.markets.getD 1 default).lastImpliedRate : Int) :=
  ⟨⟨by decide, by decide, by decide⟩,
    oracle_rate_exact_maturity curveExact 7 50 1 (by decide) (by decide) (by decide)⟩

/-- C2 (amended): for an idiosyncratic maturity strictly between two
adjacent active maturities, `getOracleRate` returns exactly the integer
linear interpolation of the two stored implied rates, and that value lies
in the closed interval between them (strictness can fail when integer
division rounds onto an endpoint). -/
theorem oracle_rate_idiosyncratic_between (curve : WorkingCurve) (s t m j : Nat)
    (hsorted : curve.markets.Pairwise (fun a b => a.maturity < b.maturity))
    (hj : j + 1 < curve.markets.length)
    (hshort : (curve.markets.getD j default).maturity < m)
    (hlong : m < (curve.markets.getD (j + 1) default).maturity) :
    getOracleRate curve s m t =
      Except.ok (interpolate
        ((curve.markets.getD j default).lastImpliedRate : Int)
        ((curve.markets.getD j default).maturity : Int)
        ((curve.markets.getD (j + 1) default).lastImpliedRate : Int)
        ((curve.markets.getD (j + 1) default).maturity : Int) (m : Int)) ∧
    min ((curve.markets.getD j default).lastImpliedRate : Int)
        ((curve.markets.getD (j + 1) default).lastImpliedRate : Int) ≤
      interpolate
        ((curve.markets.getD j default).lastImpliedRate : Int)
        ((curve.markets.getD j default).maturity : Int)
        ((curve.markets.getD (j + 1) default).lastImpliedRate : Int)
        ((curve.markets.getD (j + 1) default).maturity : Int) (m : Int) ∧
    interpolate
        ((curve.markets.getD j default).lastImpliedRate : Int)
        ((curve.markets.getD j default).maturity : Int)
        ((curve.markets.getD (j + 1) default).lastImpliedRate : Int)
        ((curve.markets.getD (j + 1) default).maturity : Int) (m : Int) ≤
      max ((curve.markets.getD j default).lastImpliedRate : Int)
        ((curve.markets.getD (j + 1) default).lastImpliedRate : Int) := by
  have hbefore : ∀ i, i < j + 1 → (curve.markets.getD i default).maturity < m := by
    intro i hi
    rcases Nat.lt_succ_iff_lt_or_eq.mp hi with hij | rfl
    · exact lt_trans (getD_maturity_lt_of_pairwise _ hsorted hij (by omega)) hshort
    · exact hshort
  have hmi : marketIndex m curve.markets = some (j + 2) := by
    have := marketIndex_eq_some m curve.markets (j + 1) hj hbefore (le_of_lt hlong)
    simpa using this
  have hne : ¬ m = (curve.markets.getD (j + 1) default).maturity := ne_of_lt hlong
  have hbounds := interpolate_mem_closed_interval
    ((curve.markets.getD j default).lastImpliedRate : Int)
    ((curve.markets.getD j default).maturity : Int)
    ((curve.markets.getD (j + 1) default).lastImpliedRate : Int)
    ((curve.markets.getD (j + 1) default).maturity : Int) (m : Int)
    (by exact_mod_cast le_of_lt hshort) (by exact_mod_cast le_of_lt hlong)
    (by exact_mod_cast lt_trans hshort hlong)
  refine ⟨?_, hbounds.1, hbounds.2⟩
  simp only [getOracleRate, classify, hmi]
  have heq2 : j + 2 - 2 = j := by omega
  have heq1 : j + 2 - 1 = j + 1 := by omega
  have hpos : ¬ (j + 2 = 1) := by omega
  simp [heq1, heq2, hne, hpos]
  intro hcontra
  exact absurd hcontra (by simpa using hne)

theorem oracle_rate_idiosyncratic_between_witness :
    (curveExact.markets.Pairwise (fun a b => a.maturity < b.maturity) ∧
     0 + 1 < curveExact.markets.length ∧
     (curveExact.markets.getD 0 default).maturity < 150 ∧
     150 < (curveExact.markets.getD (0 + 1) default).maturity) ∧
    (getOracleRate curveExact 7 150 50 =
      Except.ok (interpolate
        ((curveExact.markets.getD 0 default).lastImpliedRate : Int)
        ((curveExact.markets.getD 0 default).maturity : Int)
        ((curveExact.markets.getD (0 + 1) default).lastImpliedRate : Int)
        ((curveExact.markets.getD (0 + 1) default).maturity : Int) (150 : Int)) ∧
    min ((curveExact.markets.getD 0 default).lastImpliedRate : Int)
        ((curveExact.markets.getD (0 + 1) default).lastImpliedRate : Int) ≤
      interpolate
        ((curveExact.markets.getD 0 default).lastImpliedRate : Int)
        ((curveExact.markets.getD 0 default).maturity : Int)
        ((curveExact.markets.getD (0 + 1) default).lastImpliedRate : Int)
        ((curveExact.markets.getD (0 + 1) default).maturity : Int) (150 : Int) ∧
    interpolate
        ((curveExact.markets.getD 0 default).lastImpliedRate : Int)
        ((curveExact.markets.getD 0 default).maturity : Int)
        ((curveExact.markets.getD (0 + 1) default).lastImpliedRate : Int)
        ((curveExact.markets.getD (0 + 1) default).maturity : Int) (150 : Int) ≤
      max ((curveExact.markets.getD 0 default).lastImpliedRate : Int)
        ((curveExact.markets.getD (0 + 1) default).lastImpliedRate : Int)) :=
  ⟨⟨by decide, by decide, by decide, by decide⟩,
    oracle_rate_idiosyncratic_between curveExact 7 50 150 0
      (by decide) (by decide) (by decide) (by decide)⟩

/-- A two-market curve whose adjacent implied rates differ by less than the
tenor gap, so the interpolant rounds down onto the short rate. -/
def curveTight : WorkingCurve :=
  ⟨sampleConfig 2, [mkMarket 1000 100, mkMarket 1010 105]⟩

/-- C2 counterexample: at target maturity 1001, strictly between the active
maturities 1000 and 1010 with implied rates 100 and 105, the interpolated
oracle rate is exactly 100 = min(100, 105); it is not strictly between the
two implied rates, refuting the claim as stated. -/
theorem oracle_rate_between_strictness_fails :
    (curveTight.markets.getD 0 default).maturity < 1001 ∧
    1001 < (curveTight.markets.getD 1 default).maturity ∧
    getOracleRate curveTight 7 1001 900 =
      Except.ok ((curveTight.markets.getD 0 default).lastImpliedRate : Int) ∧
    ¬ (min ((curveTight.markets.getD 0 default).lastImpliedRate : Int)
          ((curveTight.markets.getD 1 default).lastImpliedRate : Int) <
        ((curveTight.markets.getD 0 default).lastImpliedRate : Int) ∧
       ((curveTight.markets.getD 0 default).lastImpliedRate : Int) <
        max ((curveTight.markets.getD 0 default).lastImpliedRate : Int)
          ((curveTight.markets.getD 1 default).lastImpliedRate : Int)) :=
  ⟨by decide, by decide, rfl, by decide⟩

/-- C3 (amended): for an idiosyncratic maturity shorter than the shortest
active market, `getOracleRate` interpolates between the annualized spot
rate (at `shortTime = evalTime`) and the first market's implied rate (at
`longTime` = its maturity), and the result lies in the closed interval
between the spot rate and that implied rate (strictness can fail when
integer division rounds onto an endpoint). -/
theorem oracle_rate_short_end (curve : WorkingCurve) (s t m : Nat)
    (h0 : 0 < curve.markets.length)
    (ht : t ≤ m)
    (hm : m < (curve.markets.getD 0 default).maturity) :
    getOracleRate curve s m t =
      Except.ok (interpolate (spotRate s : Int) (t : Int)
        ((curve.markets.getD 0 default).lastImpliedRate : Int)
        ((curve.markets.getD 0 default).maturity : Int) (m : Int)) ∧
    min (spotRate s : Int) ((curve.markets.getD 0 default).lastImpliedRate : Int) ≤
      interpolate (spotRate s : Int) (t : Int)
        ((curve.markets.getD 0 default).lastImpliedRate : Int)
        ((curve.markets.getD 0 default).maturity : Int) (m : Int) ∧
    interpolate (spotRate s : Int) (t : Int)
        ((curve.markets.getD 0 default).lastImpliedRate : Int)
        ((curve.markets.getD 0 default).maturity : Int) (m : Int) ≤
      max (spotRate s : Int) ((curve.markets.getD 0 default).lastImpliedRate : Int) := by
  have hmi : marketIndex m curve.markets = some 1 :=
    marketIndex_eq_some m curve.markets 0 h0
      (fun i hi => absurd hi (Nat.not_lt_zero i)) (le_of_lt hm)
  have hne : ¬ m = (curve.markets.getD 0 default).maturity := ne_of_lt hm
  have hbounds := interpolate_mem_closed_interval (spotRate s : Int) (t : Int)
    ((curve.markets.getD 0 default).lastImpliedRate : Int)
    ((curve.markets.getD 0 default).maturity : Int) (m : Int)
    (by exact_mod_cast ht) (by exact_mod_cast le_of_lt hm)
    (by exact_mod_cast lt_of_le_of_lt ht hm)
  refine ⟨?_, hbounds.1, hbounds.2⟩
  simp only [getOracleRate, classify, hmi]
  simp [hne]
  intro hcontra
  exact absurd hcontra (by simpa using hne)

theorem oracle_rate_short_end_witness :
    (0 < curveExact.markets.length ∧ (50 : Nat) ≤ 60 ∧
     60 < (curveExact.markets.getD 0 default).maturity) ∧
    (getOracleRate curveExact 1000000000 60 50 =
      Except.ok (interpolate (spotRate 1000000000 : Int) (50 : Int)
        ((curveExact.markets.getD 0 default).lastImpliedRate : Int)
        ((curveExact.markets.getD 0 default).maturity : Int) (60 : Int)) ∧
    min (spotRate 1000000000 : Int)
        ((curveExact.markets.getD 0 default).lastImpliedRate : Int) ≤
      interpolate (spotRate 1000000000 : Int) (50 : Int)
        ((curveExact.markets.getD 0 default).lastImpliedRate : Int)
        ((curveExact.markets.getD 0 default).maturity : Int) (60 : Int) ∧
    interpolate (spotRate 1000000000 : Int) (50 : Int)
        ((curveExact.markets.getD 0 default).lastImpliedRate : Int)
        ((curveExact.markets.getD 0 default).maturity : Int) (60 : Int) ≤
      max (spotRate 1000000000 : Int)
        ((curveExact.markets.getD 0 default).lastImpliedRate : Int)) :=
  ⟨⟨by decide, by decide, by decide⟩,
    oracle_rate_short_end curveExact 1000000000 50 60
      (by decide) (by decide) (by decide)⟩

/-- A curve whose first implied rate sits five units above the spot rate
produced by a supply rate of 1e9, over a ten-second gap to the first
maturity: the short-end interpolant rounds down onto the spot rate. -/
def curveShort : WorkingCurve :=
  ⟨sampleConfig 2, [mkMarket 2000 2102405, mkMarket 3000 999]⟩

/-- C3 counterexample: with supply rate 1e9 the spot rate is 2102400; at
evaluation time 1990 and target maturity 1991, below the first active
maturity 2000 whose implied rate is 2102405, the short-end interpolation
returns exactly the spot rate 2102400 = min(spot, implied); it is not
strictly between the two, refuting the claim as stated. -/
theorem oracle_rate_short_end_strictness_fails :
    (1990 : Nat) < 1991 ∧
    1991 < (curveShort.markets.getD 0 default).maturity ∧
    getOracleRate curveShort 1000000000 1991 1990 =
      Except.ok ((spotRate 1000000000 : Nat) : Int) ∧
    ¬ (min ((spotRate 1000000000 : Nat) : Int)
          ((curveShort.markets.getD 0 default).lastImpliedRate : Int) <
        ((spotRate 1000000000 : Nat) : Int) ∧
       ((spotRate 1000000000 : Nat) : Int) <
        max ((spotRate 1000000000 : Nat) : Int)
          ((curveShort.markets.getD 0 default).lastImpliedRate : Int)) :=
  ⟨by decide, by decide, rfl, by decide⟩

end Contracts
